import Mathlib

/-!
Shallow embedding of `src/main.py` (voltmeter with multiplexed seven-segment
display, MicroPython).

Modelling conventions:
* Pins are modelled by their last written value (0 or 1, as `ℕ`), collected in
  the lists `segment_pins` (8 entries) and `display_select_pins` (4 entries),
  mirroring the Python global lists.
* Python floats are modelled by exact rationals `ℚ`; `time.ticks_ms`
  timestamps by `ℤ`.  External inputs (current time, raw ADC sample) become
  explicit parameters of the functions that read them.
* All module-level mutable globals are gathered in one structure `SysState`;
  each Python function becomes a state transformer.
* The display timer is modelled by the flag `display_timer_on`; the periodic
  callback `scan_display` is applied explicitly, once per modelled tick.
-/

/-- Constant `DISPLAY_COUNT = 4` (number of 7-segment displays). -/
def DISPLAY_COUNT : ℤ := 4

/-- Constant `DECIMAL_PRECISION = 2` (number of decimal places to display). -/
def DECIMAL_PRECISION : ℤ := 2

/-- The segment-mask table `digit_list_hex` (0-9, A-F, and empty), bit i =
segment i, active low. -/
def digit_list_hex : List ℕ :=
  [0x40, 0x79, 0x24, 0x30, 0x19, 0x12, 0x02, 0x78,
   0x00, 0x10, 0x08, 0x03, 0x46, 0x21, 0x06, 0x0E, 0x7F]

/-- The module-level mutable state of `main.py`: the pin output lists, the
display-timer flag, and the global variables
`display_value`, `voltage_value`, `button_pressed`, `last_button_time_stamp`,
`current_display_index`. -/
@[ext] structure SysState where
  segment_pins : List ℕ
  display_select_pins : List ℕ
  display_timer_on : Bool
  display_value : ℚ
  voltage_value : ℚ
  button_pressed : Bool
  last_button_time_stamp : ℤ
  current_display_index : ℤ
  deriving Repr

/-- Function `read_analogue_voltage(adcPin)`: converts a raw 16-bit ADC sample to
`(voltage, milliVolt)`; `voltage = adcValue * (3.3 / 65535)`,
`milliVolt = voltage * 1000`.  Float arithmetic is modelled exactly over `ℚ`. -/
def read_analogue_voltage (adcValue : ℕ) : ℚ × ℚ :=
  let max_voltage : ℚ := 33/10
  let voltage : ℚ := (adcValue : ℚ) * (max_voltage / 65535)
  let milliVolt : ℚ := voltage * 1000
  (voltage, milliVolt)

/-- Function `disable_display_timer()`: `display_timer.deinit()`. -/
def disable_display_timer (st : SysState) : SysState :=
  { st with display_timer_on := false }

/-- Function `enable_display_timer()`: re-initialises the periodic display timer. -/
def enable_display_timer (st : SysState) : SysState :=
  { st with display_timer_on := true }

/-- Function `display_digit(digit_value, digit_index, dp_enable)`: returns without
action when `digit_value` is outside `[0, len(digit_list_hex)-1]`; otherwise
turns all display-select pins off, writes segment pins 0-6 from the mask
`digit_list_hex[digit_value]`, writes segment pin 7 from `dp_enable`
(active low), then enables all displays when `digit_index == -1`, exactly
display `digit_index` when `0 <= digit_index < DISPLAY_COUNT`, and none
otherwise. -/
def display_digit (st : SysState) (digit_value digit_index : ℤ)
    (dp_enable : Bool) : SysState :=
  if digit_value < 0 ∨ digit_value > (digit_list_hex.length : ℤ) - 1 then st
  else
    let sels0 := st.display_select_pins.map (fun _ => 0)
    let mask := digit_list_hex.getD digit_value.toNat 0
    let segs :=
      ((List.range 7).foldl (fun s i => s.set i ((mask >>> i) &&& 1))
          st.segment_pins).set 7 (if dp_enable then 0 else 1)
    let sels :=
      if digit_index = -1 then sels0.map (fun _ => 1)
      else if 0 ≤ digit_index ∧ digit_index < DISPLAY_COUNT then
        sels0.set digit_index.toNat 1
      else sels0
    { st with segment_pins := segs, display_select_pins := sels }

/-- The decimal digit `int(v // math.pow(10, i)) % 10` extracted by
`scan_display` (Python float floor-division and nonnegative `%`). -/
def scanDigit (v : ℚ) (i : ℤ) : ℤ := ⌊v / (10:ℚ) ^ i⌋ % 10

/-- Function `scan_display(timer_int)`: renders the digit of `display_value` at
`current_display_index` (decimal point exactly when the index equals
`DECIMAL_PRECISION` and `DECIMAL_PRECISION ≠ 0`), then decrements
`current_display_index`, wrapping to `DISPLAY_COUNT - 1` below 0. -/
def scan_display (st : SysState) : SysState :=
  let digit := scanDigit st.display_value st.current_display_index
  let st1 := display_digit st digit st.current_display_index
      (decide (st.current_display_index = DECIMAL_PRECISION ∧
               (0:ℤ) ≠ DECIMAL_PRECISION))
  let idx := st.current_display_index - 1
  { st1 with current_display_index := if idx < 0 then DISPLAY_COUNT - 1 else idx }

/-- Function `irq_handler(pin)`: with the current time `now` (`time.ticks_ms()`), if
`now - last_button_time_stamp > 200` then record the timestamp and set
`button_pressed`; otherwise leave the state unchanged. -/
def irq_handler (st : SysState) (now : ℤ) : SysState :=
  let button_press_delta := now - st.last_button_time_stamp
  if button_press_delta > 200 then
    { st with last_button_time_stamp := now, button_pressed := true }
  else st

/-- Decimal digits of a natural number, most significant first (fuel-based;
the fuel `n+1` always suffices).  Models Python's decimal formatting of an
integer part. -/
def natDigitsAux : ℕ → ℕ → List ℕ
  | 0, _ => []
  | fuel + 1, n => if n < 10 then [n] else natDigitsAux fuel (n / 10) ++ [n % 10]

/-- Decimal digits of `n`, most significant first (`natDigits 0 = [0]`). -/
def natDigits (n : ℕ) : List ℕ := natDigitsAux (n + 1) n

/-- Round half to even, the rounding used by Python's `f"{value:.2f}"`
(modelled exactly over `ℚ`). -/
def roundHalfEven (q : ℚ) : ℤ :=
  if q - (⌊q⌋ : ℚ) < 1/2 then ⌊q⌋
  else if (1/2 : ℚ) < q - (⌊q⌋ : ℚ) then ⌊q⌋ + 1
  else if ⌊q⌋ % 2 = 0 then ⌊q⌋ else ⌊q⌋ + 1

/-- The character sequence of `f"{value:.2f}"` for a nonnegative value whose
rounded hundredths are `n`: the decimal digits of `n / 100`, the decimal
point (encoded `none`), then exactly two fractional digits.  A digit
character `c` is encoded `some (int c)`. -/
def fmt2List (n : ℕ) : List (Option ℕ) :=
  (natDigits (n / 100)).map some ++
    [none, some (n % 100 / 10), some (n % 100 % 10)]

/-- The loop of `display_voltage_value`: walks the character list, skipping
the decimal point without consuming a position, and records one
`display_digit` call `(int(char), position, dp_enable)` per digit character,
where `dp_enable = (position == decimal_point_position - 1)`. -/
def dvvCallsAux (dpp : ℤ) : List (Option ℕ) → ℤ → List (ℤ × ℤ × Bool)
  | [], _ => []
  | none :: rest, position => dvvCallsAux dpp rest position
  | some d :: rest, position =>
      ((d : ℤ), position, decide (position = dpp - 1)) ::
        dvvCallsAux dpp rest (position - 1)

/-- The sequence of `display_digit` calls `(digit, position, dp_enable)`
performed by `display_voltage_value(value)`:
`str_value = f"{value:.2f}"`, start `position = len(str_value) - 2`,
`decimal_point_position = len(str_value) - str_value.index('.')`. -/
def dvv_calls (value : ℚ) : List (ℤ × ℤ × Bool) :=
  let str_value := fmt2List (roundHalfEven (value * 100)).toNat
  let position : ℤ := (str_value.length : ℤ) - 2
  let decimal_point_position : ℤ :=
    (str_value.length : ℤ) - (str_value.indexOf none : ℤ)
  dvvCallsAux decimal_point_position str_value position

/-- Function `display_voltage_value(value)`: disables the display timer, performs the
`display_digit` calls of `dvv_calls`, then re-enables the display timer. -/
def display_voltage_value (st : SysState) (value : ℚ) : SysState :=
  enable_display_timer
    ((dvv_calls value).foldl
      (fun s c => display_digit s c.1 c.2.1 c.2.2)
      (disable_display_timer st))

/-- One iteration of the `while True` loop in `setup()`, with the raw ADC
sample that `read_analogue_voltage` would obtain as parameter: if
`button_pressed`, store the converted voltage into `voltage_value` and clear
the flag; then `display_voltage_value(voltage_value)`. -/
def setup_loop_iter (st : SysState) (adcValue : ℕ) : SysState :=
  let st1 :=
    if st.button_pressed then
      { st with voltage_value := (read_analogue_voltage adcValue).1,
                button_pressed := false }
    else st
  display_voltage_value st1 st1.voltage_value

/-- The segment-pin contents written by a `display_digit` call with a valid
digit value `d`: bits 0-6 of `digit_list_hex[d]` on pins 0-6, and the decimal
point (active low) on pin 7. -/
def segMask (d : ℤ) (dp : Bool) : List ℕ :=
  (List.range 7).map (fun j => (digit_list_hex.getD d.toNat 0 >>> j) &&& 1) ++
    [if dp then 0 else 1]

/-- The state after `setup()` has configured pins and timers, just before the
main loop: select pins low, segment pins high, timer running, and the
initial global values from the top of `main.py`
(`display_value = 0`, `voltage_value = 0`, `button_pressed = False`,
`last_button_time_stamp = 0`, `current_display_index = DISPLAY_COUNT - 1`). -/
def initial_state : SysState :=
  { segment_pins := List.replicate 8 1
    display_select_pins := List.replicate 4 0
    display_timer_on := true
    display_value := 0
    voltage_value := 0
    button_pressed := false
    last_button_time_stamp := 0
    current_display_index := DISPLAY_COUNT - 1 }

/-! Basic lemmas about `display_digit`. -/

lemma display_digit_display_value (st : SysState) (d i : ℤ) (dp : Bool) :
    (display_digit st d i dp).display_value = st.display_value := by
  unfold display_digit; split <;> rfl

lemma display_digit_voltage_value (st : SysState) (d i : ℤ) (dp : Bool) :
    (display_digit st d i dp).voltage_value = st.voltage_value := by
  unfold display_digit; split <;> rfl

lemma display_digit_button_pressed (st : SysState) (d i : ℤ) (dp : Bool) :
    (display_digit st d i dp).button_pressed = st.button_pressed := by
  unfold display_digit; split <;> rfl

lemma display_digit_last_ts (st : SysState) (d i : ℤ) (dp : Bool) :
    (display_digit st d i dp).last_button_time_stamp = st.last_button_time_stamp := by
  unfold display_digit; split <;> rfl

lemma display_digit_current (st : SysState) (d i : ℤ) (dp : Bool) :
    (display_digit st d i dp).current_display_index = st.current_display_index := by
  unfold display_digit; split <;> rfl

lemma display_digit_timer (st : SysState) (d i : ℤ) (dp : Bool) :
    (display_digit st d i dp).display_timer_on = st.display_timer_on := by
  unfold display_digit; split <;> rfl

lemma foldl_set_length (mask : ℕ) (ixs : List ℕ) :
    ∀ s : List ℕ,
      (ixs.foldl (fun a i => a.set i ((mask >>> i) % 2)) s).length = s.length := by
  induction ixs with
  | nil => intro s; rfl
  | cons x xs ih => intro s; rw [List.foldl_cons, ih, List.length_set]

lemma display_digit_segment_length (st : SysState) (d i : ℤ) (dp : Bool) :
    (display_digit st d i dp).segment_pins.length = st.segment_pins.length := by
  unfold display_digit
  split
  · rfl
  · simp [List.length_set, foldl_set_length]

lemma display_digit_select_length (st : SysState) (d i : ℤ) (dp : Bool) :
    (display_digit st d i dp).display_select_pins.length =
      st.display_select_pins.length := by
  unfold display_digit
  split
  · rfl
  · split_ifs <;> simp [List.length_set]

lemma eight_elems {l : List ℕ} (h : l.length = 8) :
    ∃ a b c d e f g h8, l = [a, b, c, d, e, f, g, h8] := by
  rcases l with _ | ⟨a, l⟩; · simp at h
  rcases l with _ | ⟨b, l⟩; · simp at h
  rcases l with _ | ⟨c, l⟩; · simp at h
  rcases l with _ | ⟨d, l⟩; · simp at h
  rcases l with _ | ⟨e, l⟩; · simp at h
  rcases l with _ | ⟨f, l⟩; · simp at h
  rcases l with _ | ⟨g, l⟩; · simp at h
  rcases l with _ | ⟨h8, l⟩; · simp at h
  rcases l with _ | ⟨x, l⟩
  · exact ⟨a, b, c, d, e, f, g, h8, rfl⟩
  · simp at h

lemma four_elems {l : List ℕ} (h : l.length = 4) :
    ∃ a b c d, l = [a, b, c, d] := by
  rcases l with _ | ⟨a, l⟩; · simp at h
  rcases l with _ | ⟨b, l⟩; · simp at h
  rcases l with _ | ⟨c, l⟩; · simp at h
  rcases l with _ | ⟨d, l⟩; · simp at h
  rcases l with _ | ⟨x, l⟩
  · exact ⟨a, b, c, d, rfl⟩
  · simp at h

lemma display_digit_segment_pins (st : SysState) (d i : ℤ) (dp : Bool)
    (h8 : st.segment_pins.length = 8) (h0 : 0 ≤ d) (h16 : d ≤ 16) :
    (display_digit st d i dp).segment_pins = segMask d dp := by
  obtain ⟨a, b, c, d', e, f, g, h', hl⟩ := eight_elems h8
  interval_cases d <;>
    simp [display_digit, segMask, hl, digit_list_hex, DISPLAY_COUNT, List.range_succ]

lemma display_digit_invalid (st : SysState) (d i : ℤ) (dp : Bool)
    (h : d < 0 ∨ 16 < d) : display_digit st d i dp = st := by
  unfold display_digit
  rw [if_pos]
  have : ((digit_list_hex.length : ℤ)) = 17 := by simp [digit_list_hex]
  rw [this]
  omega

lemma display_digit_select_pins (st : SysState) (d i : ℤ) (dp : Bool)
    (h4 : st.display_select_pins.length = 4) (h0 : 0 ≤ d) (h16 : d ≤ 16) :
    (display_digit st d i dp).display_select_pins =
      if i = -1 then List.replicate 4 1
      else if 0 ≤ i ∧ i < 4 then (List.replicate 4 0).set i.toNat 1
      else List.replicate 4 0 := by
  obtain ⟨a, b, c, d', hl⟩ := four_elems h4
  have hv : ¬ (d < 0 ∨ d > (digit_list_hex.length : ℤ) - 1) := by
    have : ((digit_list_hex.length : ℤ)) = 17 := by simp [digit_list_hex]
    rw [this]; omega
  simp only [display_digit, hv, if_false, ite_false, DISPLAY_COUNT, hl]
  split_ifs <;> simp_all [List.replicate]

/-! Lemmas about `scan_display`. -/

lemma scanDigit_nonneg (v : ℚ) (i : ℤ) : 0 ≤ scanDigit v i :=
  Int.emod_nonneg _ (by norm_num)

lemma scanDigit_lt (v : ℚ) (i : ℤ) : scanDigit v i < 10 :=
  Int.emod_lt_of_pos _ (by norm_num)

lemma scanDigit_zero (i : ℤ) : scanDigit 0 i = 0 := by
  simp [scanDigit]

lemma scan_display_current (st : SysState) :
    (scan_display st).current_display_index =
      if st.current_display_index - 1 < 0 then 3
      else st.current_display_index - 1 := by
  simp [scan_display, DISPLAY_COUNT]

lemma scan_display_display_value (st : SysState) :
    (scan_display st).display_value = st.display_value := by
  simp [scan_display, display_digit_display_value]

lemma scan_display_voltage_value (st : SysState) :
    (scan_display st).voltage_value = st.voltage_value := by
  simp [scan_display, display_digit_voltage_value]

lemma scan_display_segment_length (st : SysState) :
    (scan_display st).segment_pins.length = st.segment_pins.length := by
  simp [scan_display, display_digit_segment_length]

lemma scan_display_select_length (st : SysState) :
    (scan_display st).display_select_pins.length =
      st.display_select_pins.length := by
  simp [scan_display, display_digit_select_length]

lemma scan_display_segment_pins (st : SysState)
    (h8 : st.segment_pins.length = 8) :
    (scan_display st).segment_pins =
      segMask (scanDigit st.display_value st.current_display_index)
        (decide (st.current_display_index = DECIMAL_PRECISION ∧
                 (0:ℤ) ≠ DECIMAL_PRECISION)) := by
  simp only [scan_display]
  exact display_digit_segment_pins _ _ _ _ h8 (scanDigit_nonneg _ _)
    (le_of_lt (lt_of_lt_of_le (scanDigit_lt _ _) (by norm_num)))

/-! Lemmas about rounding and the renderer call sequence. -/

lemma roundHalfEven_intCast (n : ℤ) : roundHalfEven ((n : ℚ)) = n := by
  simp [roundHalfEven]

lemma round_1234 : roundHalfEven ((1234/100 : ℚ) * 100) = 1234 := by
  have h : ((1234/100 : ℚ) * 100) = ((1234 : ℤ) : ℚ) := by norm_num
  rw [h, roundHalfEven_intCast]

lemma round_330 : roundHalfEven ((33/10 : ℚ) * 100) = 330 := by
  have h : ((33/10 : ℚ) * 100) = ((330 : ℤ) : ℚ) := by norm_num
  rw [h, roundHalfEven_intCast]

lemma dvv_calls_1234 :
    dvv_calls (1234/100) =
      [(1, 3, false), (2, 2, true), (3, 1, false), (4, 0, false)] := by
  unfold dvv_calls
  rw [round_1234]
  decide

lemma dvv_calls_330 :
    dvv_calls (33/10) = [(3, 2, true), (3, 1, false), (0, 0, false)] := by
  unfold dvv_calls
  rw [round_330]
  decide

lemma natDigitsAux_lt (fuel : ℕ) :
    ∀ n d, d ∈ natDigitsAux fuel n → d < 10 := by
  induction fuel with
  | zero => intro n d h; simp [natDigitsAux] at h
  | succ fuel ih =>
    intro n d h
    by_cases hn : n < 10
    · simp [natDigitsAux, hn] at h; omega
    · simp [natDigitsAux, hn] at h
      rcases h with h | h
      · exact ih _ _ h
      · omega

lemma fmt2List_digit_lt {n d : ℕ} (h : some d ∈ fmt2List n) : d < 10 := by
  simp only [fmt2List, List.mem_append, List.mem_map, List.mem_cons,
    List.mem_singleton] at h
  rcases h with ⟨x, hx, he⟩ | h | h | h
  · cases he; exact natDigitsAux_lt _ _ _ hx
  · simp at h
  · cases h; omega
  · rcases h with h | h
    · cases h; omega
    · simp at h

lemma dvvCallsAux_length (dpp : ℤ) :
    ∀ (chars : List (Option ℕ)) (pos : ℤ),
      (dvvCallsAux dpp chars pos).length =
        chars.countP (fun x => x.isSome) := by
  intro chars
  induction chars with
  | nil => intro pos; rfl
  | cons x rest ih =>
    intro pos
    cases x <;> simp [dvvCallsAux, ih, List.countP_cons]

lemma dvvCallsAux_mem (dpp : ℤ) :
    ∀ (chars : List (Option ℕ)) (pos : ℤ) (c : ℤ × ℤ × Bool),
      c ∈ dvvCallsAux dpp chars pos →
      (∃ d, some d ∈ chars ∧ c.1 = (d : ℤ)) ∧
        pos - (chars.countP (fun x => x.isSome) : ℤ) < c.2.1 ∧ c.2.1 ≤ pos := by
  intro chars
  induction chars with
  | nil => intro pos c h; simp [dvvCallsAux] at h
  | cons x rest ih =>
    intro pos c h
    cases x with
    | none =>
      obtain ⟨⟨d, hd, he⟩, h1, h2⟩ := ih pos c h
      refine ⟨⟨d, by simp [hd], he⟩, ?_, h2⟩
      simpa [List.countP_cons] using h1
    | some d0 =>
      rw [dvvCallsAux] at h
      rcases List.mem_cons.mp h with h | h
      · subst h
        refine ⟨⟨d0, by simp, rfl⟩, ?_, le_refl _⟩
        show pos - _ < pos
        have hpos : 0 < List.countP (fun x => x.isSome) (some d0 :: rest) := by
          simp [List.countP_cons]
        omega
      · obtain ⟨⟨d, hd, he⟩, h1, h2⟩ := ih (pos - 1) c h
        refine ⟨⟨d, by simp [hd], he⟩, ?_, by omega⟩
        have hc : (List.countP (fun x => x.isSome) (some d0 :: rest) : ℤ) =
            (List.countP (fun x => x.isSome) rest : ℤ) + 1 := by
          simp [List.countP_cons]
        omega

lemma fmt2List_countP (n : ℕ) :
    (fmt2List n).countP (fun x => x.isSome) =
      (natDigits (n / 100)).length + 2 := by
  simp [fmt2List, List.countP_append, List.countP_cons, List.countP_map,
    Function.comp_def, List.countP_true]

lemma fmt2List_length (n : ℕ) :
    (fmt2List n).length = (natDigits (n / 100)).length + 3 := by
  simp [fmt2List]

lemma dvv_calls_mem (v : ℚ) (c : ℤ × ℤ × Bool) (h : c ∈ dvv_calls v) :
    0 ≤ c.1 ∧ c.1 ≤ 16 ∧ 0 ≤ c.2.1 := by
  unfold dvv_calls at h
  obtain ⟨⟨d, hd, he⟩, h1, h2⟩ := dvvCallsAux_mem _ _ _ _ h
  have hlt : d < 10 := fmt2List_digit_lt hd
  refine ⟨?_, ?_, ?_⟩
  · rw [he]; exact Int.natCast_nonneg d
  · rw [he]; omega
  · rw [fmt2List_countP, fmt2List_length] at h1
    push_cast at h1
    omega

lemma dvv_calls_ne_nil (v : ℚ) : dvv_calls v ≠ [] := by
  intro h
  have hl := congrArg List.length h
  rw [dvv_calls] at hl
  simp only [dvvCallsAux_length, fmt2List_countP, List.length_nil] at hl
  omega

/-! At most one select line during a batch. -/

lemma set_replicate_count_le_one (t : ℕ) :
    ((List.replicate 4 0).set t 1).count 1 ≤ 1 := by
  match t with
  | 0 => decide
  | 1 => decide
  | 2 => decide
  | 3 => decide
  | (k + 4) =>
    show (([0, 0, 0, 0] : List ℕ).set (k + 4) 1).count 1 ≤ 1
    rw [show (([0, 0, 0, 0] : List ℕ).set (k + 4) 1) = [0, 0, 0, 0] from rfl]
    decide

lemma display_digit_select_count (st : SysState) (d i : ℤ) (dp : Bool)
    (h4 : st.display_select_pins.length = 4) (h0 : 0 ≤ d) (h16 : d ≤ 16)
    (hi : 0 ≤ i) :
    ((display_digit st d i dp).display_select_pins).count 1 ≤ 1 := by
  rw [display_digit_select_pins st d i dp h4 h0 h16]
  have hne : ¬ (i = -1) := by omega
  rw [if_neg hne]
  split_ifs with h
  · exact set_replicate_count_le_one _
  · decide

lemma batch_fold_select (calls : List (ℤ × ℤ × Bool)) :
    ∀ s : SysState,
      (∀ c ∈ calls, 0 ≤ c.1 ∧ c.1 ≤ 16 ∧ 0 ≤ c.2.1) →
      s.display_select_pins.length = 4 →
      (calls.foldl (fun a c => display_digit a c.1 c.2.1 c.2.2) s).display_select_pins.length = 4 ∧
      (calls ≠ [] →
        ((calls.foldl (fun a c => display_digit a c.1 c.2.1 c.2.2) s).display_select_pins).count 1 ≤ 1) := by
  induction calls with
  | nil => intro s _ h4; exact ⟨h4, by intro h; exact absurd rfl h⟩
  | cons c cs ih =>
    intro s hv h4
    have hc := hv c (List.mem_cons_self c cs)
    have h4' : (display_digit s c.1 c.2.1 c.2.2).display_select_pins.length = 4 := by
      rw [display_digit_select_length]; exact h4
    have hcount : ((display_digit s c.1 c.2.1 c.2.2).display_select_pins).count 1 ≤ 1 :=
      display_digit_select_count s c.1 c.2.1 c.2.2 h4 hc.1 hc.2.1 hc.2.2
    have ihs := ih (display_digit s c.1 c.2.1 c.2.2)
      (fun x hx => hv x (List.mem_cons_of_mem c hx)) h4'
    rw [List.foldl_cons]
    refine ⟨ihs.1, fun _ => ?_⟩
    rcases cs with _ | ⟨c', cs'⟩
    · simpa using hcount
    · exact ihs.2 (by simp)

/-! Determinism of the batch fold (for idempotence). -/

lemma display_digit_congr (s t : SysState) (d i : ℤ) (dp : Bool)
    (hs8 : s.segment_pins.length = 8) (ht8 : t.segment_pins.length = 8)
    (hs4 : s.display_select_pins.length = 4) (ht4 : t.display_select_pins.length = 4)
    (h0 : 0 ≤ d) (h16 : d ≤ 16)
    (htimer : s.display_timer_on = t.display_timer_on)
    (hdv : s.display_value = t.display_value)
    (hvv : s.voltage_value = t.voltage_value)
    (hbp : s.button_pressed = t.button_pressed)
    (hts : s.last_button_time_stamp = t.last_button_time_stamp)
    (hci : s.current_display_index = t.current_display_index) :
    display_digit s d i dp = display_digit t d i dp := by
  ext1
  · rw [display_digit_segment_pins s d i dp hs8 h0 h16,
      display_digit_segment_pins t d i dp ht8 h0 h16]
  · rw [display_digit_select_pins s d i dp hs4 h0 h16,
      display_digit_select_pins t d i dp ht4 h0 h16]
  · rw [display_digit_timer, display_digit_timer, htimer]
  · rw [display_digit_display_value, display_digit_display_value, hdv]
  · rw [display_digit_voltage_value, display_digit_voltage_value, hvv]
  · rw [display_digit_button_pressed, display_digit_button_pressed, hbp]
  · rw [display_digit_last_ts, display_digit_last_ts, hts]
  · rw [display_digit_current, display_digit_current, hci]

lemma batch_fold_fields (calls : List (ℤ × ℤ × Bool)) :
    ∀ s : SysState,
      (calls.foldl (fun a c => display_digit a c.1 c.2.1 c.2.2) s).display_value = s.display_value ∧
      (calls.foldl (fun a c => display_digit a c.1 c.2.1 c.2.2) s).voltage_value = s.voltage_value ∧
      (calls.foldl (fun a c => display_digit a c.1 c.2.1 c.2.2) s).button_pressed = s.button_pressed ∧
      (calls.foldl (fun a c => display_digit a c.1 c.2.1 c.2.2) s).last_button_time_stamp = s.last_button_time_stamp ∧
      (calls.foldl (fun a c => display_digit a c.1 c.2.1 c.2.2) s).current_display_index = s.current_display_index ∧
      (calls.foldl (fun a c => display_digit a c.1 c.2.1 c.2.2) s).display_timer_on = s.display_timer_on ∧
      (calls.foldl (fun a c => display_digit a c.1 c.2.1 c.2.2) s).segment_pins.length = s.segment_pins.length ∧
      (calls.foldl (fun a c => display_digit a c.1 c.2.1 c.2.2) s).display_select_pins.length = s.display_select_pins.length := by
  induction calls with
  | nil => intro s; exact ⟨rfl, rfl, rfl, rfl, rfl, rfl, rfl, rfl⟩
  | cons c cs ih =>
    intro s
    obtain ⟨i1, i2, i3, i4, i5, i6, i7, i8⟩ := ih (display_digit s c.1 c.2.1 c.2.2)
    rw [List.foldl_cons]
    exact ⟨i1.trans (display_digit_display_value _ _ _ _),
      i2.trans (display_digit_voltage_value _ _ _ _),
      i3.trans (display_digit_button_pressed _ _ _ _),
      i4.trans (display_digit_last_ts _ _ _ _),
      i5.trans (display_digit_current _ _ _ _),
      i6.trans (display_digit_timer _ _ _ _),
      i7.trans (display_digit_segment_length _ _ _ _),
      i8.trans (display_digit_select_length _ _ _ _)⟩

lemma batch_fold_congr (calls : List (ℤ × ℤ × Bool)) (s t : SysState)
    (hne : calls ≠ [])
    (hv : ∀ c ∈ calls, 0 ≤ c.1 ∧ c.1 ≤ 16)
    (hs8 : s.segment_pins.length = 8) (ht8 : t.segment_pins.length = 8)
    (hs4 : s.display_select_pins.length = 4) (ht4 : t.display_select_pins.length = 4)
    (htimer : s.display_timer_on = t.display_timer_on)
    (hdv : s.display_value = t.display_value)
    (hvv : s.voltage_value = t.voltage_value)
    (hbp : s.button_pressed = t.button_pressed)
    (hts : s.last_button_time_stamp = t.last_button_time_stamp)
    (hci : s.current_display_index = t.current_display_index) :
    calls.foldl (fun a c => display_digit a c.1 c.2.1 c.2.2) s =
      calls.foldl (fun a c => display_digit a c.1 c.2.1 c.2.2) t := by
  rcases calls with _ | ⟨c, cs⟩
  · exact absurd rfl hne
  · have hc := hv c (List.mem_cons_self c cs)
    rw [List.foldl_cons, List.foldl_cons,
      display_digit_congr s t c.1 c.2.1 c.2.2 hs8 ht8 hs4 ht4 hc.1 hc.2
        htimer hdv hvv hbp hts hci]

lemma scanDigit_33_10_at_0 : scanDigit (33/10) 0 = 3 := by
  simp [scanDigit]
  norm_num

/-! Claim theorems. -/

/-- C9: `read_analogue_voltage` converts a raw 16-bit sample by
`value * 3.3 / 65535` volts (and `* 1000` millivolts): raw 65535 converts to
exactly 3.300 V / 3300.00 mV, and raw 0 to exactly 0.000 V / 0.00 mV. -/
theorem read_analogue_voltage_endpoints :
    read_analogue_voltage 65535 = (33/10, 3300) ∧
    read_analogue_voltage 0 = (0, 0) := by
  constructor <;> norm_num [read_analogue_voltage, Prod.ext_iff]

/-- C4: for every state and every edge arriving at time `now`, `irq_handler`
sets `button_pressed` and updates `last_button_time_stamp` to `now` exactly
when `now - last_button_time_stamp > 200`; an edge inside the window leaves
the whole state unchanged (silently dropped). -/
theorem irq_handler_debounce_iff (st : SysState) (now : ℤ) :
    (now - st.last_button_time_stamp > 200 →
      irq_handler st now =
        { st with last_button_time_stamp := now, button_pressed := true }) ∧
    (now - st.last_button_time_stamp ≤ 200 → irq_handler st now = st) := by
  constructor <;> intro h
  · simp [irq_handler, h]
  · simp only [irq_handler]
    rw [if_neg (by omega)]

/-- Witness for C4: the edge at `t = 300` from the initial state is outside
the debounce window and is accepted. -/
theorem irq_handler_debounce_iff_witness :
    irq_handler initial_state 300 =
      { initial_state with last_button_time_stamp := 300, button_pressed := true } :=
  (irq_handler_debounce_iff initial_state 300).1 (by decide)

/-- C3 counterexample: from the initial state (`last_button_time_stamp = 0`,
flag cleared), the edge at `t = 0` is REJECTED (`0 - 0 > 200` is false), so
the claim's first edge is not accepted and the flag stays cleared. -/
theorem irq_edge_at_zero_rejected_cex :
    (irq_handler initial_state 0).button_pressed = false ∧
    (irq_handler initial_state 0).last_button_time_stamp = 0 :=
  ⟨rfl, rfl⟩

/-- C3 (amended): edges at t=0, t=50, t=250 from the initial state: the t=0
edge is rejected (state unchanged), the t=50 edge is rejected (state
unchanged), the t=250 edge is accepted (`250 - 0 > 200`); exactly one
accepted edge in total, and `last_button_time_stamp` ends at 250. -/
theorem irq_edges_0_50_250 :
    irq_handler initial_state 0 = initial_state ∧
    irq_handler (irq_handler initial_state 0) 50 = initial_state ∧
    (irq_handler (irq_handler (irq_handler initial_state 0) 50) 250).button_pressed
      = true ∧
    (irq_handler (irq_handler (irq_handler initial_state 0) 50)
        250).last_button_time_stamp = 250 :=
  ⟨rfl, rfl, rfl, rfl⟩

/-- C1 counterexample: rendering 12.34 does NOT light the decimal point at
position 1: the call at position 1 is `(3, 1, false)` (dp off), and the
decimal point is lit at position 2 instead (`(2, 2, true)`). -/
theorem dvv_dp_position_cex :
    ((3:ℤ), (1:ℤ), true) ∉ dvv_calls (1234/100) ∧
    ((2:ℤ), (2:ℤ), true) ∈ dvv_calls (1234/100) := by
  rw [dvv_calls_1234]
  exact ⟨by decide, by decide⟩

/-- C1 (amended): rendering 12.34 with 4 positions and 2-decimal precision
performs exactly the `display_digit` calls with digits `[1,2,3,4]` at
positions `[3,2,1,0]`, with the decimal-point flag true only for the digit
rendered at position 2 (the digit immediately left of the decimal point) and
false at every other position; `display_voltage_value` is exactly the fold
of these calls between timer disable and re-enable. -/
theorem display_voltage_value_trace_12_34 :
    dvv_calls (1234/100) =
      [(1, 3, false), (2, 2, true), (3, 1, false), (4, 0, false)] ∧
    ∀ st : SysState,
      display_voltage_value st (1234/100) =
        enable_display_timer
          (([((1:ℤ), (3:ℤ), false), (2, 2, true), (3, 1, false),
              (4, 0, false)]).foldl
            (fun s c => display_digit s c.1 c.2.1 c.2.2)
            (disable_display_timer st)) := by
  refine ⟨dvv_calls_1234, fun st => ?_⟩
  unfold display_voltage_value
  rw [dvv_calls_1234]

/-- C5: the scan cursor is always in `[0, 3]` and counts down cyclically:
after `n` ticks from any state with cursor `c ∈ [0, 3]`, the cursor is
`(c - n) % 4`, so over any sequence of ticks it visits
`3, 2, 1, 0, 3, …` with no skips or repeats within one cycle of 4 ticks. -/
theorem scan_cursor_cyclic (st : SysState) (n : ℕ)
    (h : 0 ≤ st.current_display_index ∧ st.current_display_index < 4) :
    (scan_display^[n] st).current_display_index =
      (st.current_display_index - (n : ℤ)) % 4 ∧
    0 ≤ (scan_display^[n] st).current_display_index ∧
    (scan_display^[n] st).current_display_index < 4 := by
  induction n with
  | zero =>
    simp only [Function.iterate_zero_apply]
    push_cast
    omega
  | succ n ih =>
    obtain ⟨i1, i2, i3⟩ := ih
    rw [Function.iterate_succ_apply', scan_display_current, i1]
    push_cast
    split_ifs <;> omega

/-- Witness for C5: six ticks from the initial state (cursor 3) leave the
cursor at `(3 - 6) % 4 = 1`. -/
theorem scan_cursor_cyclic_witness :
    (scan_display^[6] initial_state).current_display_index =
      (initial_state.current_display_index - ((6:ℕ) : ℤ)) % 4 :=
  (scan_cursor_cyclic initial_state 6 (by decide)).1

/-- C6: for every digit value `v ∈ [0, 16]`, `display_digit` drives the
segment lines with exactly the mask `digit_list_hex[v]` on bits 0-6 and the
decimal-point flag on bit 7; for `v < 0` or `v > 16` it returns with no
mutation at all. -/
theorem display_digit_mask_and_noop (st : SysState) (d i : ℤ) (dp : Bool)
    (h8 : st.segment_pins.length = 8) :
    (0 ≤ d → d ≤ 16 →
      (display_digit st d i dp).segment_pins = segMask d dp) ∧
    (d < 0 ∨ 16 < d → display_digit st d i dp = st) :=
  ⟨fun h0 h16 => display_digit_segment_pins st d i dp h8 h0 h16,
   fun h => display_digit_invalid st d i dp h⟩

/-- Witness for C6: digit value 10 (glyph `A`) from the initial state writes
exactly `segMask 10 false` to the segment pins. -/
theorem display_digit_mask_and_noop_witness :
    (display_digit initial_state 10 0 false).segment_pins = segMask 10 false :=
  (display_digit_mask_and_noop initial_state 10 0 false (by decide)).1
    (by decide) (by decide)

/-- C10: for a valid digit value and a position index outside
`{-1} ∪ [0, 3]` (as produced by `display_voltage_value` when the formatted
value has more digits than the 4-position bank), `display_digit` writes the
segment lines but leaves every position-select line deactivated: the extra
digit is silently dropped and no out-of-range list access occurs. -/
theorem display_digit_out_of_range_position (st : SysState) (d i : ℤ)
    (dp : Bool) (h8 : st.segment_pins.length = 8)
    (h4 : st.display_select_pins.length = 4)
    (h0 : 0 ≤ d) (h16 : d ≤ 16) (hne : i ≠ -1) (hout : i < 0 ∨ 4 ≤ i) :
    (display_digit st d i dp).display_select_pins = List.replicate 4 0 ∧
    (display_digit st d i dp).segment_pins = segMask d dp := by
  constructor
  · rw [display_digit_select_pins st d i dp h4 h0 h16, if_neg hne,
      if_neg (by omega)]
  · exact display_digit_segment_pins st d i dp h8 h0 h16

/-- Witness for C10: digit 1 at position 4 (one past the bank) from the
initial state leaves all four select lines low. -/
theorem display_digit_out_of_range_position_witness :
    (display_digit initial_state 1 4 false).display_select_pins =
      List.replicate 4 0 :=
  (display_digit_out_of_range_position initial_state 1 4 false (by decide)
    (by decide) (by decide) (by decide) (by decide) (by decide)).1

/-- C7: during a `display_voltage_value` batch (scanning disabled), after
each of the first `k ≥ 1` `display_digit` calls at most one position-select
line is high, and no call of the batch uses the broadcast index `-1`. -/
theorem batch_at_most_one_select (v : ℚ) (st : SysState) (k : ℕ)
    (hv : 0 ≤ v) (h4 : st.display_select_pins.length = 4) (hk : 1 ≤ k) :
    ((((dvv_calls v).take k).foldl (fun s c => display_digit s c.1 c.2.1 c.2.2)
        (disable_display_timer st)).display_select_pins).count 1 ≤ 1 ∧
    ∀ c ∈ dvv_calls v, c.2.1 ≠ -1 := by
  have hmem : ∀ c ∈ (dvv_calls v).take k, 0 ≤ c.1 ∧ c.1 ≤ 16 ∧ 0 ≤ c.2.1 :=
    fun c hc => dvv_calls_mem v c (List.mem_of_mem_take hc)
  have hne : (dvv_calls v).take k ≠ [] := by
    have hn := dvv_calls_ne_nil v
    rcases hd : dvv_calls v with _ | ⟨c, cs⟩
    · exact absurd hd hn
    · rcases k with _ | k
      · omega
      · simp
  have h4' : (disable_display_timer st).display_select_pins.length = 4 := h4
  obtain ⟨_, h2⟩ :=
    batch_fold_select ((dvv_calls v).take k) (disable_display_timer st) hmem h4'
  refine ⟨h2 hne, fun c hc => ?_⟩
  have hp := (dvv_calls_mem v c hc).2.2
  omega

/-- Witness for C7: after the first two calls of the batch for the value 0,
at most one select line is high. -/
theorem batch_at_most_one_select_witness :
    ((((dvv_calls 0).take 2).foldl (fun s c => display_digit s c.1 c.2.1 c.2.2)
        (disable_display_timer initial_state)).display_select_pins).count 1
      ≤ 1 :=
  (batch_at_most_one_select 0 initial_state 2 (le_refl 0) (by decide)
    (by decide)).1

/-- C8: `display_voltage_value` is idempotent for a fixed input: calling it
twice in succession leaves the segment and position-select lines (indeed the
whole state) exactly as calling it once. -/
theorem display_voltage_value_idempotent (v : ℚ) (st : SysState) (hv : 0 ≤ v)
    (h8 : st.segment_pins.length = 8) (h4 : st.display_select_pins.length = 4) :
    display_voltage_value (display_voltage_value st v) v =
      display_voltage_value st v := by
  have hfields := batch_fold_fields (dvv_calls v) (disable_display_timer st)
  have hv16 : ∀ c ∈ dvv_calls v, 0 ≤ c.1 ∧ c.1 ≤ 16 :=
    fun c hc => ⟨(dvv_calls_mem v c hc).1, (dvv_calls_mem v c hc).2.1⟩
  unfold display_voltage_value
  apply congrArg enable_display_timer
  apply batch_fold_congr _ _ _ (dvv_calls_ne_nil v) hv16
  · exact hfields.2.2.2.2.2.2.1.trans h8
  · exact h8
  · exact hfields.2.2.2.2.2.2.2.trans h4
  · exact h4
  · rfl
  · exact hfields.1
  · exact hfields.2.1
  · exact hfields.2.2.1
  · exact hfields.2.2.2.1
  · exact hfields.2.2.2.2.1

/-- Witness for C8: rendering the value 0 twice from the initial state
equals rendering it once. -/
theorem display_voltage_value_idempotent_witness :
    display_voltage_value (display_voltage_value initial_state 0) 0 =
      display_voltage_value initial_state 0 :=
  display_voltage_value_idempotent 0 initial_state (le_refl 0) (by decide)
    (by decide)

lemma rav_65535 : (read_analogue_voltage 65535).1 = 33/10 := by
  norm_num [read_analogue_voltage]

/-- C2 (code bug): the periodic tick does NOT read the value the control
loop stores.  After an accepted press at t=250 samples raw 65535 (3.3 V,
stored into `voltage_value`), `display_value` — the variable `scan_display`
reads — is still 0, and the tick that reaches cursor 0 writes the segment
mask of digit 0, not of digit 3 = `scanDigit 3.3 0` of the stored value. -/
theorem scan_display_ignores_stored_voltage :
    (setup_loop_iter (irq_handler initial_state 250) 65535).display_value
      = 0 ∧
    (setup_loop_iter (irq_handler initial_state 250) 65535).voltage_value
      = 33/10 ∧
    (scan_display (scan_display (scan_display (setup_loop_iter
        (irq_handler initial_state 250) 65535)))).current_display_index = 0 ∧
    (scan_display (scan_display (scan_display (scan_display (setup_loop_iter
        (irq_handler initial_state 250) 65535))))).segment_pins
      = segMask 0 false ∧
    scanDigit
      (scan_display (scan_display (scan_display (setup_loop_iter
        (irq_handler initial_state 250) 65535)))).voltage_value
      (scan_display (scan_display (scan_display (setup_loop_iter
        (irq_handler initial_state 250) 65535)))).current_display_index = 3 ∧
    segMask 0 false ≠ segMask 3 false := by
  have e : setup_loop_iter (irq_handler initial_state 250) 65535 =
      display_voltage_value
        { initial_state with
            voltage_value := (read_analogue_voltage 65535).1,
            button_pressed := false,
            last_button_time_stamp := 250 }
        (read_analogue_voltage 65535).1 := rfl
  rw [rav_65535] at e
  have hst2 : setup_loop_iter (irq_handler initial_state 250) 65535 =
      ({ segment_pins := [0, 0, 0, 0, 0, 0, 1, 1],
         display_select_pins := [1, 0, 0, 0],
         display_timer_on := true,
         display_value := 0,
         voltage_value := 33/10,
         button_pressed := false,
         last_button_time_stamp := 250,
         current_display_index := 3 } : SysState) := by
    rw [e]
    unfold display_voltage_value
    rw [dvv_calls_330]
    rfl
  have hdv : (setup_loop_iter (irq_handler initial_state 250) 65535).display_value = 0 := by
    rw [hst2]
  have hvv : (setup_loop_iter (irq_handler initial_state 250) 65535).voltage_value = 33/10 := by
    rw [hst2]
  have hci : (setup_loop_iter (irq_handler initial_state 250) 65535).current_display_index = 3 := by
    rw [hst2]
  have hlen : (setup_loop_iter (irq_handler initial_state 250) 65535).segment_pins.length = 8 := by
    rw [hst2]; rfl
  have hci1 : (scan_display (setup_loop_iter (irq_handler initial_state 250) 65535)).current_display_index = 2 := by
    rw [scan_display_current, hci]; decide
  have hci2 : (scan_display (scan_display (setup_loop_iter (irq_handler initial_state 250) 65535))).current_display_index = 1 := by
    rw [scan_display_current, hci1]; decide
  have hci3 : (scan_display (scan_display (scan_display (setup_loop_iter (irq_handler initial_state 250) 65535)))).current_display_index = 0 := by
    rw [scan_display_current, hci2]; decide
  have hdv3 : (scan_display (scan_display (scan_display (setup_loop_iter (irq_handler initial_state 250) 65535)))).display_value = 0 := by
    rw [scan_display_display_value, scan_display_display_value,
      scan_display_display_value, hdv]
  have hvv3 : (scan_display (scan_display (scan_display (setup_loop_iter (irq_handler initial_state 250) 65535)))).voltage_value = 33/10 := by
    rw [scan_display_voltage_value, scan_display_voltage_value,
      scan_display_voltage_value, hvv]
  have hlen3 : (scan_display (scan_display (scan_display (setup_loop_iter (irq_handler initial_state 250) 65535)))).segment_pins.length = 8 := by
    rw [scan_display_segment_length, scan_display_segment_length,
      scan_display_segment_length, hlen]
  refine ⟨hdv, hvv, hci3, ?_, ?_, by decide⟩
  · rw [scan_display_segment_pins _ hlen3, hdv3, hci3, scanDigit_zero]
    decide
  · rw [hvv3, hci3]
    exact scanDigit_33_10_at_0
